import Mathlib

/-!
Verification development for the layered blob-store library (file sources).

The TypeScript sources are embedded shallowly: every class becomes a state
structure, every method a pure function threading that state.  JavaScript
objects used as string-keyed maps become association lists in insertion
order (`jsGet`/`jsSet`/`jsDelete` mirror property read, write and `delete`);
JavaScript truthiness of `string | null` values is mirrored by `jsTruthy`
(`null` and `""` are falsy).  Errors thrown by the code become `Except`
results carrying the state as already mutated at the throw site.
-/

namespace Db

/-! ### JavaScript object / value helpers -/

/-- Property read on a JS object used as a map (`obj[k]`, `undefined ↦ none`). -/
def jsGet {β : Type} : List (String × β) → String → Option β
  | [], _ => none
  | (k', v) :: rest, k => if k' = k then some v else jsGet rest k

/-- Property write on a JS object used as a map (`obj[k] = v`); a new key is
appended, preserving JS insertion order for `Object.keys`. -/
def jsSet {β : Type} : List (String × β) → String → β → List (String × β)
  | [], k, v => [(k, v)]
  | (k', v') :: rest, k, v =>
      if k' = k then (k, v) :: rest else (k', v') :: jsSet rest k v

/-- `delete obj[k]`. -/
def jsDelete {β : Type} : List (String × β) → String → List (String × β)
  | [], _ => []
  | (k', v') :: rest, k =>
      if k' = k then jsDelete rest k else (k', v') :: jsDelete rest k

/-- `Object.keys(obj)` (insertion order). -/
def jsKeys {β : Type} (m : List (String × β)) : List String :=
  m.map Prod.fst

/-- JS truthiness of a `string | null` value: `null` and `""` are falsy. -/
def jsTruthy : Option String → Bool
  | none => false
  | some s => !s.data.isEmpty

/-- `s.substr(start, len)` (character-indexed, as JS code units; all
contents here are ASCII). -/
def jsSubstr (s : String) (start len : Nat) : String :=
  String.mk ((s.data.drop start).take len)

/-- `s.slice(0, stop)`. -/
def jsSliceTo (s : String) (stop : Nat) : String :=
  String.mk (s.data.take stop)

/-- `s.slice(start)`. -/
def jsSliceFrom (s : String) (start : Nat) : String :=
  String.mk (s.data.drop start)

/-- Boolean map read with JS default: `!!obj[k]` (absent ↦ false). -/
def jsGetBool (m : List (String × Bool) ) (k : String) : Bool :=
  match jsGet m k with
  | some b => b
  | none => false

/-- Membership insert for a JS object used as a set (`obj[k] = true`). -/
def setInsert (l : List String) (k : String) : List String :=
  if k ∈ l then l else l ++ [k]

/-- Membership removal for a JS object used as a set (`delete obj[k]`). -/
def setRemove (l : List String) (k : String) : List String :=
  l.filter (fun x => decide (x ≠ k))

/-! ### Listing options (`{ pathFilter?, callback? }`)

The `callback` of `listFiles` early-terminates the listing: names are
visited in order and collected while the callback returns `true`; the loop
breaks at the first `false`.  A `pathFilter` of `""` is JS-falsy and is
ignored, exactly as `if(options.pathFilter)` does. -/

structure ListOptions where
  pathFilter : Option String := none
  callback : Option (String → Bool) := none

/-- The option handling shared verbatim by `MemFileSource.listFiles`,
`MockFileSource.listFiles` and `RandomAccessFileSource.listFiles`. -/
def applyListOptions (files : List String) (options : Option ListOptions) : List String :=
  match options with
  | none => files
  | some opts =>
    let files :=
      match opts.pathFilter with
      | some p => if p.data.isEmpty then files else files.filter (fun f => f.startsWith p)
      | none => files
    match opts.callback with
    | some cb => files.takeWhile cb
    | none => files

/-! ### MemFileSource (src/file-source/mem-file-source.ts)

`files` stores `string | null`; a `null` entry is the stub written by
`putFileStub`, distinct from an absent key only for `Object.keys`. -/

structure MemState where
  files : List (String × Option String) := []
  fileUrls : List (String × String) := []
deriving DecidableEq, Repr

def memGetFile (m : MemState) (path : String) (_decrypt : Bool) : Option String :=
  match jsGet m.files path with
  | none => none
  | some c => c

/-- `putFile` with the raw stored value; the source's non-null assertions
(`contents!`, `orig!`) can in fact pass `null` through, which JS stores as
`null` — `memPutFileRaw` mirrors that. -/
def memPutFileRaw (m : MemState) (path : String) (content : Option String) : MemState :=
  { m with files := jsSet m.files path content }

def memPutFile (m : MemState) (path content : String) (_encrypt : Bool) : MemState :=
  memPutFileRaw m path (some content)

def memPutFileStub (m : MemState) (path : String) : MemState :=
  memPutFileRaw m path none

def memDeleteFile (m : MemState) (path : String) : MemState :=
  { files := jsDelete m.files path, fileUrls := jsDelete m.fileUrls path }

def memListFiles (m : MemState) (options : Option ListOptions) : List String :=
  applyListOptions (jsKeys m.files) options

def memPutFileUrl (m : MemState) (path url : String) : MemState :=
  { m with fileUrls := jsSet m.fileUrls path url }

def memGetFileUrl (m : MemState) (path : String) : Option String :=
  if jsTruthy (memGetFile m path false) then
    match jsGet m.fileUrls path with
    | some u => if u.data.isEmpty then none else some u
    | none => none
  else none

def memClear (m : MemState) (path : Option String) : MemState :=
  match path with
  | some p => { files := jsDelete m.files p, fileUrls := jsDelete m.fileUrls p }
  | none => {}

/-! ### The backend (tests/mock-file-source.ts, counters included)

`MockFileSource` has the same store semantics as `MemFileSource` (minus
stubs) plus per-operation call counters, which let theorems speak about
"no backend mutation occurred". -/

structure Backend where
  files : List (String × Option String) := []
  getCalls : Nat := 0
  putCalls : Nat := 0
  deleteCalls : Nat := 0
  listCalls : Nat := 0
  urlCalls : Nat := 0
deriving DecidableEq, Repr

def bkGetFile (b : Backend) (path : String) (_decrypt : Bool) : Option String × Backend :=
  (match jsGet b.files path with
   | none => none
   | some c => c,
   { b with getCalls := b.getCalls + 1 })

def bkPutFileRaw (b : Backend) (path : String) (content : Option String) : Backend :=
  { b with putCalls := b.putCalls + 1, files := jsSet b.files path content }

def bkDeleteFile (b : Backend) (path : String) : Backend :=
  { b with deleteCalls := b.deleteCalls + 1, files := jsDelete b.files path }

def bkListFiles (b : Backend) (options : Option ListOptions) : List String × Backend :=
  (applyListOptions (jsKeys b.files) options, { b with listCalls := b.listCalls + 1 })

def mockPublicUrl (path : String) : String :=
  "https://mock.filesource.nil/files" ++
    (if path.length > 0 ∧ path.startsWith "/" then "" else "/") ++ path

def bkGetFileUrl (b : Backend) (path : String) : Option String × Backend :=
  (if jsTruthy (match jsGet b.files path with | none => none | some c => c) then
     some (mockPublicUrl path)
   else none,
   { b with urlCalls := b.urlCalls + 1 })

/-! ### CachedFileSource (src/file-source/cached-file-source.ts) -/

inductive ModType
  | updated
  | deleted
deriving DecidableEq, Repr

structure Mod where
  type : ModType
  encrypted : Bool
deriving DecidableEq, Repr

structure CachedState where
  cache : MemState := {}
  originalCache : MemState := {}
  negativeCache : List String := []
  modifications : List (String × Mod) := []
  hasList : Bool := false
  lastEncryptState : List (String × Bool) := []
  originalEncryptState : List (String × Bool) := []
  cacheFileUrls : Bool := true
  autoFlushing : Bool := true
deriving DecidableEq, Repr

def cfsIsDeleted (s : CachedState) (path : String) : Bool :=
  match jsGet s.modifications path with
  | some m => if m.type = ModType.deleted then true else false
  | none => false

/-- `flushOne`: apply one recorded modification to the backend. An `Updated`
modification flushes the *cached* value (`contents!`) as is. -/
def cfsFlushOne (s : CachedState) (b : Backend) (path : String) (mod : Mod) :
    CachedState × Backend :=
  match mod.type with
  | ModType.deleted => (s, bkDeleteFile b path)
  | ModType.updated =>
      let contents := memGetFile s.cache path mod.encrypted
      (s, bkPutFileRaw b path contents)

/-- `flush(path)` for a single path. -/
def cfsFlushPath (s : CachedState) (b : Backend) (path : String) :
    CachedState × Backend :=
  match jsGet s.modifications path with
  | none => (s, b)
  | some mod =>
      let (s, b) := cfsFlushOne s b path mod
      ({ s with modifications := jsDelete s.modifications path,
                originalCache := memClear s.originalCache (some path),
                originalEncryptState := jsDelete s.originalEncryptState path }, b)

/-- `flush()` with no path: apply every recorded modification, then clear
them all together with the original snapshots. -/
def cfsFlushAll (s : CachedState) (b : Backend) : CachedState × Backend :=
  let (s, b) := s.modifications.foldl
    (fun acc pm => cfsFlushOne acc.1 acc.2 pm.1 pm.2) (s, b)
  ({ s with modifications := [], originalCache := {}, originalEncryptState := [] }, b)

def cfsGetFile (s : CachedState) (b : Backend) (path : String) (decrypt : Bool) :
    Option String × CachedState × Backend :=
  if cfsIsDeleted s path then (none, s, b)
  else if path ∈ s.negativeCache then (none, s, b)
  else
    let cacheVal := memGetFile s.cache path decrypt
    let (s, b) :=
      if jsTruthy cacheVal then (s, b)
      else
        let (contents, b) := bkGetFile b path decrypt
        if jsTruthy contents then
          ({ s with cache := memPutFileRaw s.cache path contents }, b)
        else
          ({ s with negativeCache := setInsert s.negativeCache path }, b)
    -- the source returns the local `cache` variable read before the fetch
    (cacheVal, { s with lastEncryptState := jsSet s.lastEncryptState path decrypt }, b)

/-- The original-snapshot step shared by `putFile` and `deleteFile`: if no
original is recorded yet, snapshot the current cached value (if any). -/
def cfsSnapshotOriginal (s : CachedState) (path : String) : CachedState :=
  let orig := memGetFile s.originalCache path (jsGetBool s.originalEncryptState path)
  if jsTruthy orig then s
  else
    let curEncrypt := jsGetBool s.lastEncryptState path
    let cur := memGetFile s.cache path curEncrypt
    if jsTruthy cur then
      { s with originalCache := memPutFileRaw s.originalCache path cur,
               originalEncryptState := jsSet s.originalEncryptState path curEncrypt }
    else s

def cfsPutFile (s : CachedState) (b : Backend) (path content : String) (encrypt : Bool) :
    CachedState × Backend :=
  let s := cfsSnapshotOriginal s path
  let s := { s with cache := memPutFile s.cache path content encrypt,
                    lastEncryptState := jsSet s.lastEncryptState path encrypt,
                    modifications := jsSet s.modifications path ⟨ModType.updated, encrypt⟩,
                    negativeCache := setRemove s.negativeCache path }
  if s.autoFlushing then cfsFlushPath s b path else (s, b)

def cfsDeleteFile (s : CachedState) (b : Backend) (path : String) :
    CachedState × Backend :=
  let s := cfsSnapshotOriginal s path
  let s := { s with cache := memDeleteFile s.cache path,
                    modifications := jsSet s.modifications path ⟨ModType.deleted, false⟩,
                    negativeCache := setInsert s.negativeCache path }
  if s.autoFlushing then cfsFlushPath s b path else (s, b)

def cfsListFiles (s : CachedState) (b : Backend) (options : Option ListOptions) :
    List String × CachedState × Backend :=
  let (s, b) :=
    if s.hasList then (s, b)
    else
      -- first call: list the backend, passing the deleted-filter callback
      let (list, b) := bkListFiles b (some { callback := some (fun name => cfsIsDeleted s name) })
      ({ s with cache := list.foldl (fun m p => memPutFileStub m p) s.cache,
                hasList := true }, b)
  (memListFiles s.cache options, s, b)

def cfsGetFileUrl (s : CachedState) (b : Backend) (path : String) :
    Option String × CachedState × Backend :=
  if s.cacheFileUrls then
    let (rawUrl, b) := bkGetFileUrl b path
    (rawUrl, s, b)
  else if cfsIsDeleted s path then (none, s, b)
  else if path ∈ s.negativeCache then (none, s, b)
  else
    let cacheVal := memGetFileUrl s.cache path
    let (s, b) :=
      if jsTruthy cacheVal then (s, b)
      else
        let (url, b) := bkGetFileUrl b path
        match url with
        | some u => ({ s with cache := memPutFileUrl s.cache path u }, b)
        | none => ({ s with negativeCache := setInsert s.negativeCache path }, b)
    (cacheVal, s, b)

/-- `abortChanges(path)` for one path: revert the cache to the original
snapshot (`orig!` may be `null`, stored raw), restore the encrypt state and
drop the modification.  The backend — and the negative cache — are untouched. -/
def cfsAbortChangesPath (s : CachedState) (path : String) : CachedState :=
  match jsGet s.modifications path with
  | none => s
  | some _ =>
      let origEncrypt := jsGetBool s.originalEncryptState path
      let orig := memGetFile s.originalCache path origEncrypt
      { s with cache := memPutFileRaw s.cache path orig,
               lastEncryptState := jsSet s.lastEncryptState path origEncrypt,
               modifications := jsDelete s.modifications path }

/-- `abortChanges()` with no path: revert every recorded modification, then
clear the modification map. -/
def cfsAbortChangesAll (s : CachedState) : CachedState :=
  let s := s.modifications.foldl
    (fun acc pm =>
      let origEncrypt := jsGetBool acc.originalEncryptState pm.1
      let orig := memGetFile acc.originalCache pm.1 origEncrypt
      { acc with cache := memPutFileRaw acc.cache pm.1 orig,
                 lastEncryptState := jsSet acc.lastEncryptState pm.1 origEncrypt }) s
  { s with modifications := [] }

def cfsClear (s : CachedState) (path : Option String) : CachedState :=
  match path with
  | some p =>
      { s with cache := memClear s.cache (some p),
               originalCache := memClear s.originalCache (some p),
               modifications := jsDelete s.modifications p,
               negativeCache := setRemove s.negativeCache p,
               originalEncryptState := jsDelete s.originalEncryptState p,
               lastEncryptState := jsDelete s.lastEncryptState p,
               hasList := false }
  | none =>
      { s with cache := {}, originalCache := {}, modifications := [],
               negativeCache := [], originalEncryptState := [],
               lastEncryptState := [], hasList := false }

/-! ### Lockable (src/lockable.ts)

`uuid()` and `Date.now()` are modelled by explicit `id`/`created`
arguments; the transactional layer threads a counter that only ever hands
out unused ids, matching uuid freshness. -/

inductive LockLevel
  | read
  | write
deriving DecidableEq, Repr

structure Lock where
  level : LockLevel
  id : Nat
  created : Nat
deriving DecidableEq, Repr

structure LockableState where
  writeLock : Option Lock := none
  readLocks : List Lock := []
deriving DecidableEq, Repr

/-- First guard of `_acquire`: a write lock exists and it isn't us. -/
def writerBlocks (s : LockableState) (lock : Lock) : Bool :=
  match s.writeLock with
  | some w => decide (w.id ≠ lock.id)
  | none => false

/-- Second guard of `_acquire`: a write lock is requested and there are
read locks other than our own (`length != 0 && (length != 1 || head.id != id)`). -/
def readersBlock (s : LockableState) (lock : Lock) : Bool :=
  if lock.level = LockLevel.write then
    match s.readLocks with
    | [] => false
    | [r] => decide (r.id ≠ lock.id)
    | _ :: _ :: _ => true
  else false

/-- `_acquire`: `none` models returning `false` (denied); `some` carries the
mutated lockable. -/
def lockableAcquire (s : LockableState) (lock : Lock) : Option LockableState :=
  if writerBlocks s lock then none
  else if readersBlock s lock then none
  else if lock.level = LockLevel.read then
    let isOwnWriter : Bool :=
      match s.writeLock with
      | some w => decide (w.id = lock.id)
      | none => false
    if isOwnWriter || s.readLocks.all (fun l => decide (l.id ≠ lock.id)) then
      some { s with readLocks := s.readLocks ++ [lock] }
    else some s
  else
    let readLocks :=
      match s.readLocks with
      | [r] => if r.id = lock.id then [] else s.readLocks
      | other => other
    some { writeLock := some lock, readLocks := readLocks }

inductive TfsErr
  | lockDenied       -- "Failed to acquire lock."
  | txExpired        -- "Transactions cannot be reused."
  | txHasLock        -- "Transaction already has a lock for '...'!"
  | userError        -- an error thrown by a transact body
deriving DecidableEq, Repr

/-- `createAndAcquire(level)` with the fresh uuid and timestamp made explicit. -/
def lockableCreateAndAcquire (s : LockableState) (level : LockLevel)
    (freshId created : Nat) : Except TfsErr (Lock × LockableState) :=
  let lock : Lock := ⟨level, freshId, created⟩
  match lockableAcquire s lock with
  | some s' => Except.ok (lock, s')
  | none => Except.error TfsErr.lockDenied

/-- `upgrade(lock)`: if the current writer is already `lock.id`, return the
existing write lock; otherwise acquire a copy of `lock` at level Write. -/
def lockableUpgrade (s : LockableState) (lock : Lock) :
    Except TfsErr (Lock × LockableState) :=
  match s.writeLock with
  | some w =>
      if w.id = lock.id then Except.ok (w, s)
      else
        let newLock := { lock with level := LockLevel.write }
        match lockableAcquire s newLock with
        | some s' => Except.ok (newLock, s')
        | none => Except.error TfsErr.lockDenied
  | none =>
      let newLock := { lock with level := LockLevel.write }
      match lockableAcquire s newLock with
      | some s' => Except.ok (newLock, s')
      | none => Except.error TfsErr.lockDenied

/-- `release(lock)`: idempotent removal from whichever position it occupies. -/
def lockableRelease (s : LockableState) (lock : Lock) : LockableState :=
  if lock.level = LockLevel.write then
    match s.writeLock with
    | some w => if w.id = lock.id then { s with writeLock := none } else s
    | none => s
  else
    { s with readLocks := removeFirstById s.readLocks lock.id }
where
  /-- `findIndex` + `splice(i, 1)`: remove the first read lock with this id. -/
  removeFirstById : List Lock → Nat → List Lock
    | [], _ => []
    | l :: rest, i => if l.id = i then rest else l :: removeFirstById rest i

def lockableIsLocked (s : LockableState) : Bool :=
  s.writeLock.isSome || decide (s.readLocks.length > 0)

/-! ### TransactionFileSource (src/file-source/transaction-file-source.ts)

The store owns a `CachedFileSource` constructed with `autoFlushing: false`
over the backend.  A `Transaction` value holds its per-path locks, its two
possible list locks, and the `isExpired` flag. -/

structure TxState where
  isExpired : Bool := false
  locks : List (String × Lock) := []
  listRead : Option Lock := none
  listWrite : Option Lock := none
deriving DecidableEq, Repr

structure TfsState where
  lockables : List (String × LockableState) := []
  listLocks : List Lock := []
  cfs : CachedState := { autoFlushing := false }
  backend : Backend := {}
  nextId : Nat := 0
  now : Nat := 0
deriving DecidableEq, Repr

/-- `Transaction.setListLock`. -/
def txSetListLock (tx : TxState) (lock : Lock) : TxState :=
  if lock.level = LockLevel.read then { tx with listRead := some lock }
  else { tx with listWrite := some lock }

def tfsFreshId (st : TfsState) : Nat × TfsState :=
  (st.nextId, { st with nextId := st.nextId + 1 })

/-- `negotiateReadLock`.  Note the lockable is created in the map *before*
the acquisition attempt, so a denied acquisition leaves the fresh empty
lockable behind, as in the source. -/
def negotiateReadLock (st : TfsState) (tx : TxState) (path : String) :
    Except TfsErr Unit × TfsState × TxState :=
  match jsGet tx.locks path with
  | some _ => (Except.ok (), st, tx)
  | none =>
      let (lockable, st) :=
        match jsGet st.lockables path with
        | some l => (l, st)
        | none =>
            let l : LockableState := {}
            (l, { st with lockables := jsSet st.lockables path l })
      let (fid, st) := tfsFreshId st
      match lockableCreateAndAcquire lockable LockLevel.read fid st.now with
      | Except.error e => (Except.error e, st, tx)
      | Except.ok (lock, lockable') =>
          let st := { st with lockables := jsSet st.lockables path lockable' }
          -- addFileLock: throws if the transaction already has a lock here
          match jsGet tx.locks path with
          | some _ => (Except.error TfsErr.txHasLock, st, tx)
          | none => (Except.ok (), st, { tx with locks := jsSet tx.locks path lock })

/-- `negotiateWriteLock`. -/
def negotiateWriteLock (st : TfsState) (tx : TxState) (path : String) :
    Except TfsErr Unit × TfsState × TxState :=
  let (lockable, st) :=
    match jsGet st.lockables path with
    | some l => (l, st)
    | none =>
        let l : LockableState := {}
        (l, { st with lockables := jsSet st.lockables path l })
  match jsGet tx.locks path with
  | none =>
      let (fid, st) := tfsFreshId st
      match lockableCreateAndAcquire lockable LockLevel.write fid st.now with
      | Except.error e => (Except.error e, st, tx)
      | Except.ok (lock, lockable') =>
          let st := { st with lockables := jsSet st.lockables path lockable' }
          match jsGet tx.locks path with
          | some _ => (Except.error TfsErr.txHasLock, st, tx)
          | none => (Except.ok (), st, { tx with locks := jsSet tx.locks path lock })
  | some lock =>
      match lockableUpgrade lockable lock with
      | Except.error e => (Except.error e, st, tx)
      | Except.ok (newLock, lockable') =>
          let st := { st with lockables := jsSet st.lockables path lockable' }
          -- replaceFileLock: throws if a lock with a *different* id is recorded
          match jsGet tx.locks path with
          | some l =>
              if l.id ≠ newLock.id then (Except.error TfsErr.txHasLock, st, tx)
              else (Except.ok (), st, { tx with locks := jsSet tx.locks path newLock })
          | none => (Except.ok (), st, { tx with locks := jsSet tx.locks path newLock })

/-- `negotiateListReadLock`: a read is denied iff any outstanding list lock
is a Write (a transaction holding a list Write additionally takes a Read,
denied only if a *different* transaction holds a Write). -/
def negotiateListReadLock (st : TfsState) (tx : TxState) :
    Except TfsErr Unit × TfsState × TxState :=
  match tx.listRead.orElse (fun _ => tx.listWrite) with
  | none =>
      if st.listLocks.any (fun l => decide (l.level = LockLevel.write)) then
        (Except.error TfsErr.lockDenied, st, tx)
      else
        let (fid, st) := tfsFreshId st
        let lock : Lock := ⟨LockLevel.read, fid, st.now⟩
        (Except.ok (), { st with listLocks := st.listLocks ++ [lock] },
         txSetListLock tx lock)
  | some lock =>
      if lock.level = LockLevel.write then
        if st.listLocks.any (fun l => decide (l.level = LockLevel.write ∧ l.id ≠ lock.id)) then
          (Except.error TfsErr.lockDenied, st, tx)
        else
          let newLock := { lock with level := LockLevel.read }
          (Except.ok (), { st with listLocks := st.listLocks ++ [newLock] },
           txSetListLock tx newLock)
      else (Except.ok (), st, tx)

/-- `negotiateListWriteLock`: symmetric to the read case — a write is denied
iff any outstanding list lock is a Read. -/
def negotiateListWriteLock (st : TfsState) (tx : TxState) :
    Except TfsErr Unit × TfsState × TxState :=
  match tx.listWrite.orElse (fun _ => tx.listRead) with
  | none =>
      if st.listLocks.any (fun l => decide (l.level = LockLevel.read)) then
        (Except.error TfsErr.lockDenied, st, tx)
      else
        let (fid, st) := tfsFreshId st
        let lock : Lock := ⟨LockLevel.write, fid, st.now⟩
        (Except.ok (), { st with listLocks := st.listLocks ++ [lock] },
         txSetListLock tx lock)
  | some lock =>
      if lock.level = LockLevel.read then
        if st.listLocks.any (fun l => decide (l.level = LockLevel.read ∧ l.id ≠ lock.id)) then
          (Except.error TfsErr.lockDenied, st, tx)
        else
          let newLock := { lock with level := LockLevel.write }
          (Except.ok (), { st with listLocks := st.listLocks ++ [newLock] },
           txSetListLock tx newLock)
      else (Except.ok (), st, tx)

/-! Transaction-powered FileSource calls.  Each first asserts `!isExpired`. -/

def txGetFile (st : TfsState) (tx : TxState) (path : String) (decrypt : Bool) :
    Except TfsErr (Option String) × TfsState × TxState :=
  if tx.isExpired then (Except.error TfsErr.txExpired, st, tx)
  else
    match negotiateReadLock st tx path with
    | (Except.error e, st, tx) => (Except.error e, st, tx)
    | (Except.ok _, st, tx) =>
        let (v, cfs, b) := cfsGetFile st.cfs st.backend path decrypt
        (Except.ok v, { st with cfs := cfs, backend := b }, tx)

def txPutFile (st : TfsState) (tx : TxState) (path content : String) (encrypt : Bool) :
    Except TfsErr Unit × TfsState × TxState :=
  if tx.isExpired then (Except.error TfsErr.txExpired, st, tx)
  else
    match negotiateWriteLock st tx path with
    | (Except.error e, st, tx) => (Except.error e, st, tx)
    | (Except.ok _, st, tx) =>
        match negotiateListWriteLock st tx with
        | (Except.error e, st, tx) => (Except.error e, st, tx)
        | (Except.ok _, st, tx) =>
            let (cfs, b) := cfsPutFile st.cfs st.backend path content encrypt
            (Except.ok (), { st with cfs := cfs, backend := b }, tx)

def txDeleteFile (st : TfsState) (tx : TxState) (path : String) :
    Except TfsErr Unit × TfsState × TxState :=
  if tx.isExpired then (Except.error TfsErr.txExpired, st, tx)
  else
    match negotiateWriteLock st tx path with
    | (Except.error e, st, tx) => (Except.error e, st, tx)
    | (Except.ok _, st, tx) =>
        match negotiateListWriteLock st tx with
        | (Except.error e, st, tx) => (Except.error e, st, tx)
        | (Except.ok _, st, tx) =>
            let (cfs, b) := cfsDeleteFile st.cfs st.backend path
            (Except.ok (), { st with cfs := cfs, backend := b }, tx)

def txListFiles (st : TfsState) (tx : TxState) (options : Option ListOptions) :
    Except TfsErr (List String) × TfsState × TxState :=
  if tx.isExpired then (Except.error TfsErr.txExpired, st, tx)
  else
    match negotiateListReadLock st tx with
    | (Except.error e, st, tx) => (Except.error e, st, tx)
    | (Except.ok _, st, tx) =>
        let (files, cfs, b) := cfsListFiles st.cfs st.backend options
        (Except.ok files, { st with cfs := cfs, backend := b }, tx)

def txGetFileUrl (st : TfsState) (tx : TxState) (path : String) :
    Except TfsErr (Option String) × TfsState × TxState :=
  if tx.isExpired then (Except.error TfsErr.txExpired, st, tx)
  else
    match negotiateReadLock st tx path with
    | (Except.error e, st, tx) => (Except.error e, st, tx)
    | (Except.ok _, st, tx) =>
        let (v, cfs, b) := cfsGetFileUrl st.cfs st.backend path
        (Except.ok v, { st with cfs := cfs, backend := b }, tx)

/-- `Transaction.end`: mark expired and collect the per-path locks followed
by the list locks (`path = none`). -/
def txEnd (tx : TxState) : List (Option String × Lock) × TxState :=
  let locks := tx.locks.map (fun pl => (some pl.1, pl.2))
  let locks := locks ++ (match tx.listRead with
    | some l => [((none : Option String), l)]
    | none => [])
  let locks := locks ++ (match tx.listWrite with
    | some l => [((none : Option String), l)]
    | none => [])
  (locks, { tx with isExpired := true })

/-- Release one collected lock: per-path locks release on their lockable
(dropping it from the map when it goes idle); list locks are spliced out of
the store's list by id and level.  (On a missing lockable the source would
fault on its non-null assertion; that situation does not arise in the runs
considered and is modelled as a no-op.) -/
def tfsReleaseOne (st : TfsState) (pl : Option String × Lock) : TfsState :=
  match pl.1 with
  | some path =>
      match jsGet st.lockables path with
      | none => st
      | some lockable =>
          let lockable' := lockableRelease lockable pl.2
          if lockableIsLocked lockable' then
            { st with lockables := jsSet st.lockables path lockable' }
          else
            { st with lockables := jsDelete st.lockables path }
  | none =>
      { st with listLocks := spliceListLock st.listLocks pl.2 }
where
  /-- `findIndex(l => l.id == id && l.level == level)` + `splice`. -/
  spliceListLock : List Lock → Lock → List Lock
    | [], _ => []
    | l :: rest, lk =>
        if l.id = lk.id ∧ l.level = lk.level then rest
        else l :: spliceListLock rest lk

/-- `TransactionFileSource.commit(locks)`: flush every per-path Write lock's
key, then release all locks. -/
def tfsDoCommit (st : TfsState) (locks : List (Option String × Lock)) : TfsState :=
  let st := locks.foldl
    (fun st pl =>
      match pl.1 with
      | some path =>
          if pl.2.level = LockLevel.write then
            let (cfs, b) := cfsFlushPath st.cfs st.backend path
            { st with cfs := cfs, backend := b }
          else st
      | none => st) st
  locks.foldl tfsReleaseOne st

/-- `TransactionFileSource.abort(locks)`: abort the cached changes of every
per-path Write lock's key, then release all locks.  The backend is never
touched. -/
def tfsDoAbort (st : TfsState) (locks : List (Option String × Lock)) : TfsState :=
  let st := locks.foldl
    (fun st pl =>
      match pl.1 with
      | some path =>
          if pl.2.level = LockLevel.write then
            { st with cfs := cfsAbortChangesPath st.cfs path }
          else st
      | none => st) st
  locks.foldl tfsReleaseOne st

def txCommit (st : TfsState) (tx : TxState) : TfsState × TxState :=
  let (locks, tx) := txEnd tx
  (tfsDoCommit st locks, tx)

def txAbort (st : TfsState) (tx : TxState) : TfsState × TxState :=
  let (locks, tx) := txEnd tx
  (tfsDoAbort st locks, tx)

/-- `transact(criticalBlock)`: run the body on a fresh transaction; commit
on success, abort and re-raise on error. -/
def transact (st : TfsState)
    (body : TfsState → TxState → Except TfsErr Unit × TfsState × TxState) :
    Except TfsErr Unit × TfsState :=
  let tx : TxState := {}
  match body st tx with
  | (Except.ok _, st, tx) =>
      let (st, _) := txCommit st tx
      (Except.ok (), st)
  | (Except.error e, st, tx) =>
      let (st, _) := txAbort st tx
      (Except.error e, st)

/-! Direct (non-transactional) calls.  `getFile` routes through the
transaction; `putFile`, `deleteFile`, `listFiles` and `getFileUrl` call the
owned `CachedFileSource` directly inside the `transact` wrapper, exactly as
the source does. -/

def tfsGetFileDirect (st : TfsState) (path : String) (decrypt : Bool) :
    Except TfsErr (Option String) × TfsState :=
  let tx : TxState := {}
  match txGetFile st tx path decrypt with
  | (Except.ok v, st, tx) =>
      let (st, _) := txCommit st tx
      (Except.ok v, st)
  | (Except.error e, st, tx) =>
      let (st, _) := txAbort st tx
      (Except.error e, st)

def tfsPutFileDirect (st : TfsState) (path content : String) (encrypt : Bool) :
    Except TfsErr Unit × TfsState :=
  transact st (fun st tx =>
    -- source: `await this.fileSource.putFile(...)` — the cache, not the transaction
    let (cfs, b) := cfsPutFile st.cfs st.backend path content encrypt
    (Except.ok (), { st with cfs := cfs, backend := b }, tx))

def tfsDeleteFileDirect (st : TfsState) (path : String) :
    Except TfsErr Unit × TfsState :=
  transact st (fun st tx =>
    let (cfs, b) := cfsDeleteFile st.cfs st.backend path
    (Except.ok (), { st with cfs := cfs, backend := b }, tx))

def tfsListFilesDirect (st : TfsState) (options : Option ListOptions) :
    Except TfsErr (List String) × TfsState :=
  let tx : TxState := {}
  let (files, cfs, b) := cfsListFiles st.cfs st.backend options
  let st := { st with cfs := cfs, backend := b }
  let (st, _) := txCommit st tx
  (Except.ok files, st)

/-! ### RandomAccessFileSource (src/file-source/random-access-file-source.ts)

The append-packed store.  Its inner `fileSource` is the `CachedFileSource`
it is composed with in the repository's tests
(`new RandomAccessFileSource(new CachedFileSource(backend, ...))`).
`JSON.stringify`/`JSON.parse` of the master entry list is modelled by the
record codec `encodeMaster`/`decodeMaster` (a stand-in for the JSON array
format; `decodeMaster` inverts `encodeMaster` and rejects other strings,
which the source maps to the master-corrupt error).  The source keeps
`_randomAccessFileList` and `_randomAccessFileMap` pointing at the same
mutable records and always updates them together, so a single list with
lookup by container path models both.  `uuid()` container names are drawn
from the `nextUuid` counter. -/

structure StoredFileIndex where
  parentPath : String
  path : String
  position : Nat
  length : Nat
  encrypted : Bool
deriving DecidableEq, Repr

structure FileIndex where
  path : String
  position : Nat
  length : Nat
  encrypted : Bool
deriving DecidableEq, Repr

structure RAFile where
  path : String
  size : Nat
  encrypted : Bool
deriving DecidableEq, Repr

inductive RaErr
  | notLoaded      -- "Must call 'load' ..."
  | masterCorrupt  -- "Failed to read random access master file: ..."
deriving DecidableEq, Repr

def encodeStoredFileIndex (e : StoredFileIndex) : String :=
  e.parentPath ++ "|" ++ e.path ++ "|" ++ toString e.position ++ "|" ++
    toString e.length ++ "|" ++ (if e.encrypted then "1" else "0")

def encodeMaster (l : List StoredFileIndex) : String :=
  String.intercalate "\x0a" (l.map encodeStoredFileIndex)

def decodeStoredFileIndex (line : String) : Option StoredFileIndex :=
  match line.splitOn "|" with
  | [pp, p, pos, len, e] =>
      match pos.toNat?, len.toNat? with
      | some pos', some len' =>
          if e = "1" then some ⟨pp, p, pos', len', true⟩
          else if e = "0" then some ⟨pp, p, pos', len', false⟩
          else none
      | _, _ => none
  | _ => none

def decodeMaster (s : String) : Option (List StoredFileIndex) :=
  (s.splitOn "\x0a").mapM decodeStoredFileIndex

structure RaState where
  fileIndexes : Option (List (String × FileIndex)) := none
  raFiles : Option (List RAFile) := none
  inner : CachedState := { autoFlushing := false }
  backend : Backend := {}
  nextUuid : Nat := 0
  maxSize : Nat := 1000000
  root : String := ""
deriving DecidableEq, Repr

def masterFileName : String := "ra-master.json"

def raFullPath (st : RaState) (path : String) : String :=
  if st.root.isEmpty then path else st.root ++ "/" ++ path

def raFreshUuid (st : RaState) : String × RaState :=
  ("uuid-" ++ toString st.nextUuid, { st with nextUuid := st.nextUuid + 1 })

/-- Update the shared `RandomAccessFile` record's size through the list. -/
def raSetSize (ls : List RAFile) (p : String) (size : Nat) : List RAFile :=
  ls.map (fun r => if r.path = p then { r with size := size } else r)

def raAddSize (ls : List RAFile) (p : String) (extra : Nat) : List RAFile :=
  ls.map (fun r => if r.path = p then { r with size := r.size + extra } else r)

/-- `load()`: reset the in-memory master, read the master blob through the
cache, and rebuild `fileIndexes` and the container records from it. -/
def raLoad (st : RaState) : Except RaErr RaState :=
  let st := { st with fileIndexes := some [], raFiles := some [] }
  let (masterIndex, cfs, b) :=
    cfsGetFile st.inner st.backend (raFullPath st masterFileName) true
  let st := { st with inner := cfs, backend := b }
  if jsTruthy masterIndex then
    match decodeMaster (masterIndex.getD "") with
    | none => Except.error RaErr.masterCorrupt
    | some contents =>
        Except.ok (contents.foldl (fun st index =>
          let st := { st with
            fileIndexes := some (jsSet (st.fileIndexes.getD []) index.path
              ⟨index.parentPath, index.position, index.length, index.encrypted⟩) }
          match (st.raFiles.getD []).find? (fun r => decide (r.path = index.parentPath)) with
          | none =>
              { st with raFiles := some ((st.raFiles.getD []) ++
                  [⟨index.parentPath, index.length, index.encrypted⟩]) }
          | some _ =>
              { st with raFiles := some (raAddSize (st.raFiles.getD [])
                  index.parentPath index.length) }) st)
  else Except.ok st

/-- `save()`: persist the master (always `encrypted = true`). -/
def raSave (st : RaState) : RaState :=
  let stored := (st.fileIndexes.getD []).map (fun pfi =>
    ({ parentPath := pfi.2.path, path := pfi.1, position := pfi.2.position,
       length := pfi.2.length, encrypted := pfi.2.encrypted } : StoredFileIndex))
  let (cfs, b) := cfsPutFile st.inner st.backend (raFullPath st masterFileName)
    (encodeMaster stored) true
  { st with inner := cfs, backend := b }

def raResolveFileIndex (st : RaState) (path : String) :
    Except RaErr (Option FileIndex × RaState) := do
  let st ← if st.fileIndexes.isSome then pure st else raLoad st
  pure (jsGet (st.fileIndexes.getD []) path, st)

/-- `addContents`: append the new payload to the container body, write the
container back, record the entry's index and the container's new size. -/
def raAddContents (st : RaState) (raFilePath : String) (raFileEncrypted : Bool)
    (fileContent path newContent : String) : RaState :=
  let newPos := fileContent.length
  let fsContent := fileContent ++ newContent
  let (cfs, b) := cfsPutFile st.inner st.backend raFilePath fsContent raFileEncrypted
  let st := { st with inner := cfs, backend := b }
  { st with
      fileIndexes := some (jsSet (st.fileIndexes.getD []) path
        ⟨raFilePath, newPos, newContent.length, raFileEncrypted⟩),
      raFiles := some (raSetSize (st.raFiles.getD []) raFilePath fsContent.length) }

/-- `putFileImpl`: allocate in the first container with the matching
encrypted flag that still has room, else in a fresh container. -/
def raPutFileImpl (st : RaState) (path content : String) (encrypt : Bool) : RaState :=
  match (st.raFiles.getD []).find?
      (fun r => decide (r.encrypted = encrypt ∧ r.size + content.length ≤ st.maxSize)) with
  | none =>
      let (u, st) := raFreshUuid st
      let contPath := raFullPath st u
      let st := { st with raFiles := some ((st.raFiles.getD []) ++ [⟨contPath, 0, encrypt⟩]) }
      raAddContents st contPath encrypt "" path content
  | some raFile =>
      let (v, cfs, b) := cfsGetFile st.inner st.backend raFile.path raFile.encrypted
      let st := { st with inner := cfs, backend := b }
      let fsContent := if jsTruthy v then v.getD "" else ""
      raAddContents st raFile.path raFile.encrypted fsContent path content

def raGetFile (st : RaState) (path : String) (_decrypt : Bool) :
    Except RaErr (Option String × RaState) := do
  let (index?, st) ← raResolveFileIndex st path
  match index? with
  | some index =>
      let (contents, cfs, b) := cfsGetFile st.inner st.backend index.path index.encrypted
      let st := { st with inner := cfs, backend := b }
      if jsTruthy contents then
        -- contents.substr(index.position, index.length); returned iff truthy
        let sub := jsSubstr (contents.getD "") index.position index.length
        if jsTruthy (some sub) then pure (some sub, st) else pure (none, st)
      else pure (none, st)
  | none => pure (none, st)

/-- The neighbour-offset adjustment run by `putFile` and `deleteFile` after
excising `[index.position, index.position + index.length)`: every other
entry of the same container with a larger offset has its position reduced
by `index.position` (the source subtracts the old *position*, not the
excised *length*). -/
def raAdjustPositions (idx : List (String × FileIndex)) (containerPath : String)
    (index : FileIndex) : List (String × FileIndex) :=
  idx.map (fun pfi =>
    if pfi.2.path = containerPath ∧ pfi.2.position > index.position then
      (pfi.1, { pfi.2 with position := pfi.2.position - index.position })
    else pfi)

def raPutFile (st : RaState) (path content : String) (encrypt : Bool) :
    Except RaErr RaState := do
  let (index?, st) ← raResolveFileIndex st path
  let st :=
    match index? with
    | some index =>
        match (st.raFiles.getD []).find? (fun r => decide (r.path = index.path)) with
        | none => st   -- map and index are kept consistent in the source; unreachable
        | some raFile =>
            let (v, cfs, b) := cfsGetFile st.inner st.backend raFile.path raFile.encrypted
            let st := { st with inner := cfs, backend := b }
            let fsContent0 := if jsTruthy v then v.getD "" else ""
            -- slice(0, position) + slice(position + length)
            let fsContent := jsSliceTo fsContent0 index.position ++
              jsSliceFrom fsContent0 (index.position + index.length)
            let st := { st with
              fileIndexes := some (raAdjustPositions (st.fileIndexes.getD []) raFile.path index) }
            let newLength := fsContent.length + content.length
            if newLength > st.maxSize then
              let (cfs, b) := cfsPutFile st.inner st.backend raFile.path fsContent raFile.encrypted
              let st := { st with inner := cfs, backend := b }
              let st := { st with raFiles := some (raSetSize (st.raFiles.getD []) raFile.path fsContent.length) }
              raPutFileImpl st path content encrypt
            else
              raAddContents st raFile.path raFile.encrypted fsContent path content
    | none => raPutFileImpl st path content encrypt
  pure (raSave st)

def raDeleteFile (st : RaState) (path : String) : Except RaErr RaState := do
  let (index?, st) ← raResolveFileIndex st path
  match index? with
  | some index =>
      match (st.raFiles.getD []).find? (fun r => decide (r.path = index.path)) with
      | none => pure st   -- unreachable, as in raPutFile
      | some raFile =>
          let (v, cfs, b) := cfsGetFile st.inner st.backend raFile.path raFile.encrypted
          let st := { st with inner := cfs, backend := b }
          let fsContent0 := if jsTruthy v then v.getD "" else ""
          let fsContent := jsSliceTo fsContent0 index.position ++
            jsSliceFrom fsContent0 (index.position + index.length)
          let (cfs, b) := cfsPutFile st.inner st.backend raFile.path fsContent raFile.encrypted
          let st := { st with inner := cfs, backend := b }
          let st := { st with raFiles := some (raSetSize (st.raFiles.getD []) raFile.path fsContent.length) }
          let st := { st with fileIndexes := some (jsDelete (st.fileIndexes.getD []) path) }
          let st := { st with
            fileIndexes := some (raAdjustPositions (st.fileIndexes.getD []) raFile.path index) }
          pure (raSave st)
  | none => pure st

/-- `listFiles` reads `Object.keys(this.fileIndexes)` through the getter,
which throws when the master has not been loaded; there is no lazy load. -/
def raListFiles (st : RaState) (options : Option ListOptions) :
    Except RaErr (List String) :=
  match st.fileIndexes with
  | none => Except.error RaErr.notLoaded
  | some idx => Except.ok (applyListOptions (jsKeys idx) options)

/-! ### ReadWriteLockFileSource.listFiles (src/file-source/read-write-lock-file-source.ts)

The body is `return await this.listFiles(options);` — a call to *itself*,
not to `this.fileSource`.  The self-recursive equation is embedded with a
fuel parameter: `none` means the computation has not produced a result
within `fuel` re-entries. -/

def rwlListFiles : Nat → Option ListOptions → Option (List String)
  | 0, _ => none
  | fuel + 1, options => rwlListFiles fuel options

/-! ### Concrete scenario states used by the theorems -/

def isOkE {ε α : Type} : Except ε α → Bool
  | Except.ok _ => true
  | Except.error _ => false

instance {ε α : Type} [DecidableEq ε] [DecidableEq α] : DecidableEq (Except ε α)
  | Except.ok a, Except.ok b =>
      if h : a = b then Decidable.isTrue (by rw [h])
      else Decidable.isFalse (fun hh => h (by cases hh; rfl))
  | Except.ok _, Except.error _ => Decidable.isFalse (fun hh => Except.noConfusion hh)
  | Except.error _, Except.ok _ => Decidable.isFalse (fun hh => Except.noConfusion hh)
  | Except.error e, Except.error f =>
      if h : e = f then Decidable.isTrue (by rw [h])
      else Decidable.isFalse (fun hh => h (by cases hh; rfl))

/-- A backend already holding `file1 ↦ "content"`. -/
def oneFileBackend : Backend := { files := [("file1", some "content")] }

/-- A fresh deferred cache reading `file1` from `oneFileBackend`. -/
def staleGetRun : Option String × CachedState × Backend :=
  cfsGetFile { autoFlushing := false } oneFileBackend "file1" false

/-- A fresh deferred cache listing `oneFileBackend` for the first time. -/
def firstListingRun : List String × CachedState × Backend :=
  cfsListFiles { autoFlushing := false } oneFileBackend none

/-- A direct (non-transactional) `putFile` on a fresh transactional store. -/
def directPutRun : Except TfsErr Unit × TfsState :=
  tfsPutFileDirect {} "file1" "content" false

/-- The transactional store after `transact(tx => tx.putFile("file1","content1"))`
committed over an empty backend (scenario S2's first half). -/
def committedState : TfsState :=
  (transact {} (fun st tx => txPutFile st tx "file1" "content1" false)).2

/-- A transact body that deletes `file1` and then throws. -/
def deleteThenThrow (st : TfsState) (tx : TxState) :
    Except TfsErr Unit × TfsState × TxState :=
  match txDeleteFile st tx "file1" with
  | (Except.ok _, st, tx) => (Except.error TfsErr.userError, st, tx)
  | (Except.error e, st, tx) => (Except.error e, st, tx)

/-- The store after the delete-and-throw transaction aborted. -/
def abortedState : TfsState := (transact committedState deleteThenThrow).2

/-- Scenario S4's first three steps on the append-packed store:
put `file1`, put `file2` (same container), update `file1`. -/
def s4Trace : Except RaErr RaState :=
  (raPutFile {} "file1" "The quick brown fox" false).bind (fun st =>
  (raPutFile st "file2" "Brown bear, brown bear." false).bind (fun st =>
  raPutFile st "file1" "Cow jumps over the moon" false))

/-- The append-packed store after `putFile("file1", "", false)` on a fresh
store over an empty backend. -/
def zeroLenState : RaState :=
  match raPutFile {} "file1" "" false with
  | Except.ok st => st
  | Except.error _ => {}

def zeroLenIdxs : List (String × FileIndex) :=
  [("file1", ⟨"uuid-0", 0, 0, false⟩)]

/-- A lockable with a single read lock (id 5) and no writer. -/
def soleReaderLockable : LockableState :=
  { writeLock := none, readLocks := [⟨LockLevel.read, 5, 0⟩] }

/-- An already-ended transaction. -/
def expiredTx : TxState := { isExpired := true }

/-- A store with one outstanding list Write lock. -/
def oneListWriteState : TfsState :=
  { listLocks := [⟨LockLevel.write, 3, 0⟩], nextId := 4 }

end Db

/-! ## Theorems -/

namespace Db

/-- Reduction of `>>=` over a successful `Except`. -/
theorem except_bind_ok {ε α β : Type} (a : α) (f : α → Except ε β) :
    (Except.ok a : Except ε α) >>= f = f a := rfl

/-- `pure` for `Except` is `Except.ok`. -/
theorem except_pure_eq {ε α : Type} (a : α) :
    (pure a : Except ε α) = Except.ok a := rfl

/-- `jsGet` only succeeds on present keys. -/
theorem jsGet_mem {β : Type} {m : List (String × β)} {k : String} {v : β}
    (h : jsGet m k = some v) : k ∈ jsKeys m := by
  induction m with
  | nil => simp [jsGet] at h
  | cons hd tl ih =>
      by_cases hk : hd.1 = k
      · simp [jsKeys, hk]
      · refine List.mem_cons_of_mem _ (ih ?_)
        obtain ⟨k', v'⟩ := hd
        simpa [jsGet, hk] using h

/-- C1.  After `abort` of a transaction that deleted a key, the key does
*not* read back its pre-transaction value through the store: the delete's
`negativePresence` mark survives `abortChanges`, so the key reads back
absent even though the backend still holds the original value (which the
abort correctly left unflushed). -/
theorem abort_of_delete_reads_absent :
    (cfsGetFile committedState.cfs committedState.backend "file1" false).1
      = some "content1" ∧
    (transact committedState deleteThenThrow).1 = Except.error TfsErr.userError ∧
    (cfsGetFile abortedState.cfs abortedState.backend "file1" false).1 = none ∧
    jsGet abortedState.backend.files "file1" = some (some "content1") ∧
    abortedState.backend.putCalls = committedState.backend.putCalls ∧
    abortedState.backend.deleteCalls = committedState.backend.deleteCalls ∧
    abortedState.cfs.modifications = [] ∧
    abortedState.cfs.negativeCache = ["file1"] := by
  decide

/-- C2.  `CachedFileSource.getFile` on a key that is neither cached nor
negatively cached fetches the backend value and populates the cache with
it, but returns the *stale* pre-fetch cache read — absent — instead of the
fetched value. -/
theorem cached_get_returns_stale_absent :
    jsGet oneFileBackend.files "file1" = some (some "content") ∧
    staleGetRun.1 = none ∧
    memGetFile staleGetRun.2.1.cache "file1" false = some "content" ∧
    staleGetRun.2.1.negativeCache = [] ∧
    staleGetRun.2.2.getCalls = 1 := by
  decide

/-- C3.  Scenario S4 (the repository's own random-access test): after
`file1` is updated in place, `file2`'s recorded offset was reduced by the
excised block's *position* (0) instead of its *length* (19), so reading
`file2` returns a shifted slice of the container instead of its payload. -/
theorem appendpacked_offset_adjustment_wrong :
    (s4Trace.bind (fun st => (raGetFile st "file2" false).map Prod.fst))
      = Except.ok (some "ear.Cow jumps over the ") ∧
    (s4Trace.bind (fun st => (raGetFile st "file2" false).map Prod.fst))
      ≠ Except.ok (some "Brown bear, brown bear.") ∧
    (s4Trace.bind (fun st => (raGetFile st "file1" false).map Prod.fst))
      = Except.ok (some "Cow jumps over the moon") ∧
    (s4Trace.map (fun st => st.fileIndexes))
      = Except.ok (some [("file1", ⟨"uuid-0", 23, 23, false⟩),
                         ("file2", ⟨"uuid-0", 19, 23, false⟩)]) := by
  decide

/-- C4.  A direct `putFile` on the transactional store returns successfully
but commits nothing: the operation bypasses the transaction it wraps, so no
write lock is taken, no flush happens at commit, the modification stays
pending in the deferred cache and the backend never receives the value. -/
theorem direct_put_commits_nothing :
    directPutRun.1 = Except.ok () ∧
    jsGet directPutRun.2.backend.files "file1" = none ∧
    directPutRun.2.backend.putCalls = 0 ∧
    jsGet directPutRun.2.cfs.modifications "file1"
      = some ⟨ModType.updated, false⟩ ∧
    directPutRun.2.lockables = [] := by
  decide

/-- C5.  The first `listFiles` of a cached store over a backend holding
`file1` (with no pending deletes) ingests nothing and returns the empty
listing: the deleted-keys callback early-terminates the backend listing at
the first key that is *not* deleted. -/
theorem first_listing_drops_backend_keys :
    jsKeys oneFileBackend.files = ["file1"] ∧
    firstListingRun.1 = [] ∧
    firstListingRun.2.1.hasList = true ∧
    firstListingRun.2.1.cache.files = [] ∧
    firstListingRun.2.2.listCalls = 1 := by
  decide

/-- `lockableAcquire` returns `none` exactly when one of the two guards
rejects the request; the admission branch always succeeds. -/
theorem lockableAcquire_eq_none_iff (s : LockableState) (lock : Lock) :
    lockableAcquire s lock = none ↔
      (writerBlocks s lock = true ∨ readersBlock s lock = true) := by
  unfold lockableAcquire
  by_cases h1 : writerBlocks s lock = true
  · simp [h1]
  · simp only [Bool.not_eq_true] at h1
    by_cases h2 : readersBlock s lock = true
    · simp [h1, h2]
    · simp only [Bool.not_eq_true] at h2
      simp only [h1, h2, Bool.false_eq_true, if_false]
      split
      · split <;> simp
      · simp

/-- C6.  `createAndAcquire` with a fresh id is denied exactly by rules
A1/A2: a writer with a different id, or a Write request while a reader
with a different id exists.  A Read request is never denied when no writer
is outstanding, and `upgrade` of the sole reader yields the Write lock
with the same id. -/
theorem lockable_acquire_rules (s : LockableState) (level : LockLevel) (f t : Nat)
    (hw : ∀ w, s.writeLock = some w → w.id ≠ f)
    (hr : ∀ r ∈ s.readLocks, r.id ≠ f) :
    (isOkE (lockableCreateAndAcquire s level f t) = false ↔
      ((∃ w, s.writeLock = some w ∧ w.id ≠ f) ∨
       (level = LockLevel.write ∧ ∃ r ∈ s.readLocks, r.id ≠ f))) ∧
    (s.writeLock = none →
      isOkE (lockableCreateAndAcquire s LockLevel.read f t) = true) ∧
    (∀ r, s.writeLock = none → s.readLocks = [r] →
      lockableUpgrade s r =
        Except.ok (⟨LockLevel.write, r.id, r.created⟩,
          { writeLock := some ⟨LockLevel.write, r.id, r.created⟩,
            readLocks := [] })) := by
  obtain ⟨wl, rl⟩ := s
  refine ⟨?_, ?_, ?_⟩
  · have hnone : isOkE (lockableCreateAndAcquire ⟨wl, rl⟩ level f t) = false ↔
        lockableAcquire ⟨wl, rl⟩ ⟨level, f, t⟩ = none := by
      unfold lockableCreateAndAcquire
      cases h : lockableAcquire ⟨wl, rl⟩ ⟨level, f, t⟩ <;> simp [isOkE, h]
    rw [hnone, lockableAcquire_eq_none_iff]
    cases wl with
    | some w =>
        have hid : w.id ≠ f := hw w rfl
        have hwb : writerBlocks ⟨some w, rl⟩ ⟨level, f, t⟩ = true := by
          simp [writerBlocks, hid]
        exact ⟨fun _ => Or.inl ⟨w, rfl, hid⟩, fun _ => Or.inl hwb⟩
    | none =>
        have hwb : writerBlocks ⟨none, rl⟩ ⟨level, f, t⟩ = false := by
          simp [writerBlocks]
        cases level with
        | read => simp [hwb, readersBlock]
        | write =>
            cases rl with
            | nil => simp [hwb, readersBlock]
            | cons r rest =>
                have hid : r.id ≠ f := hr r (List.mem_cons_self r rest)
                cases rest with
                | nil => simp [hwb, readersBlock, hid]
                | cons r1 rest' =>
                    simp only [hwb, Bool.false_eq_true, false_or, readersBlock]
                    constructor
                    · intro _
                      exact Or.inr ⟨by trivial, r, List.mem_cons_self r _, hid⟩
                    · intro _
                      simp
  · intro hwl
    simp only at hwl
    subst hwl
    unfold lockableCreateAndAcquire
    have : lockableAcquire ⟨none, rl⟩ ⟨LockLevel.read, f, t⟩ ≠ none := by
      rw [Ne, lockableAcquire_eq_none_iff]
      simp [writerBlocks, readersBlock]
    cases h : lockableAcquire ⟨none, rl⟩ ⟨LockLevel.read, f, t⟩ with
    | none => exact absurd h this
    | some s' => simp [h, isOkE]
  · intro r hwl hrl
    simp only at hwl hrl
    subst hwl
    subst hrl
    simp [lockableUpgrade, lockableAcquire, writerBlocks, readersBlock]

/-- Witness for the lockable acquisition rules at a concrete state: one
reader with id 5, a write request with fresh id 7. -/
theorem lockable_acquire_rules_witness :
    (∀ w, soleReaderLockable.writeLock = some w → w.id ≠ 7) ∧
    (∀ r ∈ soleReaderLockable.readLocks, r.id ≠ 7) ∧
    ((isOkE (lockableCreateAndAcquire soleReaderLockable LockLevel.write 7 0) = false ↔
      ((∃ w, soleReaderLockable.writeLock = some w ∧ w.id ≠ 7) ∨
       (LockLevel.write = LockLevel.write ∧
        ∃ r ∈ soleReaderLockable.readLocks, r.id ≠ 7))) ∧
     (soleReaderLockable.writeLock = none →
       isOkE (lockableCreateAndAcquire soleReaderLockable LockLevel.read 7 0) = true) ∧
     (∀ r, soleReaderLockable.writeLock = none →
       soleReaderLockable.readLocks = [r] →
       lockableUpgrade soleReaderLockable r =
         Except.ok (⟨LockLevel.write, r.id, r.created⟩,
           { writeLock := some ⟨LockLevel.write, r.id, r.created⟩,
             readLocks := [] }))) :=
  ⟨fun _ h => Option.noConfusion h, by decide,
   lockable_acquire_rules soleReaderLockable LockLevel.write 7 0
     (fun _ h => Option.noConfusion h) (by decide)⟩

/-- The write-side list negotiation for a transaction holding no list lock,
as a single conditional. -/
theorem negListWrite_eq (st : TfsState) (tx : TxState)
    (h1 : tx.listRead = none) (h2 : tx.listWrite = none) :
    negotiateListWriteLock st tx =
      (if st.listLocks.any (fun l => decide (l.level = LockLevel.read)) then
         (Except.error TfsErr.lockDenied, st, tx)
       else
         (Except.ok (),
          { st with nextId := st.nextId + 1,
                    listLocks := st.listLocks ++ [⟨LockLevel.write, st.nextId, st.now⟩] },
          txSetListLock tx ⟨LockLevel.write, st.nextId, st.now⟩)) := by
  simp [negotiateListWriteLock, h1, h2, tfsFreshId, Option.orElse]

/-- The read-side list negotiation for a transaction holding no list lock. -/
theorem negListRead_eq (st : TfsState) (tx : TxState)
    (h1 : tx.listRead = none) (h2 : tx.listWrite = none) :
    negotiateListReadLock st tx =
      (if st.listLocks.any (fun l => decide (l.level = LockLevel.write)) then
         (Except.error TfsErr.lockDenied, st, tx)
       else
         (Except.ok (),
          { st with nextId := st.nextId + 1,
                    listLocks := st.listLocks ++ [⟨LockLevel.read, st.nextId, st.now⟩] },
          txSetListLock tx ⟨LockLevel.read, st.nextId, st.now⟩)) := by
  simp [negotiateListReadLock, h1, h2, tfsFreshId, Option.orElse]

/-- C7.  List-lock admission for a transaction with no list lock: a list
Write lock is granted iff no outstanding list lock is a Read (so list
Write locks of different transactions coexist), a list Read lock is
granted iff no outstanding list lock is a Write, and a denied negotiation
raises the lock-denied error. -/
theorem list_lock_admission (st : TfsState) (tx : TxState)
    (h1 : tx.listRead = none) (h2 : tx.listWrite = none) :
    (isOkE (negotiateListWriteLock st tx).1 = true ↔
      ∀ l ∈ st.listLocks, l.level ≠ LockLevel.read) ∧
    (isOkE (negotiateListReadLock st tx).1 = true ↔
      ∀ l ∈ st.listLocks, l.level ≠ LockLevel.write) ∧
    (isOkE (negotiateListWriteLock st tx).1 = false →
      (negotiateListWriteLock st tx).1 = Except.error TfsErr.lockDenied) ∧
    (isOkE (negotiateListReadLock st tx).1 = false →
      (negotiateListReadLock st tx).1 = Except.error TfsErr.lockDenied) ∧
    (∀ tx', tx'.listRead = none → tx'.listWrite = none →
      isOkE (negotiateListWriteLock st tx).1 = true →
      isOkE (negotiateListWriteLock (negotiateListWriteLock st tx).2.1 tx').1 = true) := by
  have hWok : isOkE (negotiateListWriteLock st tx).1 = true ↔
      ∀ l ∈ st.listLocks, l.level ≠ LockLevel.read := by
    rw [negListWrite_eq st tx h1 h2]
    by_cases har : st.listLocks.any (fun l => decide (l.level = LockLevel.read)) = true
    · have har' := har
      rw [List.any_eq_true] at har'
      obtain ⟨l, hl, hlv⟩ := har'
      simp only [decide_eq_true_eq] at hlv
      simp only [har, if_true, isOkE]
      constructor
      · intro h; cases h
      · intro hall; exact absurd hlv (hall l hl)
    · simp only [Bool.not_eq_true] at har
      rw [har]
      simp only [List.any_eq_false, decide_eq_true_eq] at har
      simp [isOkE]
      intro l hl
      exact har l hl
  have hRok : isOkE (negotiateListReadLock st tx).1 = true ↔
      ∀ l ∈ st.listLocks, l.level ≠ LockLevel.write := by
    rw [negListRead_eq st tx h1 h2]
    by_cases har : st.listLocks.any (fun l => decide (l.level = LockLevel.write)) = true
    · have har' := har
      rw [List.any_eq_true] at har'
      obtain ⟨l, hl, hlv⟩ := har'
      simp only [decide_eq_true_eq] at hlv
      simp only [har, if_true, isOkE]
      constructor
      · intro h; cases h
      · intro hall; exact absurd hlv (hall l hl)
    · simp only [Bool.not_eq_true] at har
      rw [har]
      simp only [List.any_eq_false, decide_eq_true_eq] at har
      simp [isOkE]
      intro l hl
      exact har l hl
  refine ⟨hWok, hRok, ?_, ?_, ?_⟩
  · rw [negListWrite_eq st tx h1 h2]
    by_cases har : st.listLocks.any (fun l => decide (l.level = LockLevel.read)) = true
    · simp [har]
    · simp [har, isOkE]
  · rw [negListRead_eq st tx h1 h2]
    by_cases har : st.listLocks.any (fun l => decide (l.level = LockLevel.write)) = true
    · simp [har]
    · simp [har, isOkE]
  · intro tx' h1' h2' hok
    have har : st.listLocks.any (fun l => decide (l.level = LockLevel.read)) = false := by
      by_cases h : st.listLocks.any (fun l => decide (l.level = LockLevel.read)) = true
      · rw [negListWrite_eq st tx h1 h2] at hok
        simp [h, isOkE] at hok
      · simpa using h
    have hst2 : (negotiateListWriteLock st tx).2.1 =
        { st with nextId := st.nextId + 1,
                  listLocks := st.listLocks ++ [⟨LockLevel.write, st.nextId, st.now⟩] } := by
      rw [negListWrite_eq st tx h1 h2]
      simp [har]
    rw [hst2, negListWrite_eq _ tx' h1' h2']
    have : (st.listLocks ++ [(⟨LockLevel.write, st.nextId, st.now⟩ : Lock)]).any
        (fun l => decide (l.level = LockLevel.read)) = false := by
      simp [List.any_append, har]
    simp [this, isOkE]

/-- Witness for the list-lock admission at concrete states: a store with
one outstanding list Write lock, and a fresh transaction. -/
theorem list_lock_admission_witness :
    (({} : TxState).listRead = none) ∧ (({} : TxState).listWrite = none) ∧
    ((isOkE (negotiateListWriteLock oneListWriteState {}).1 = true ↔
      ∀ l ∈ oneListWriteState.listLocks, l.level ≠ LockLevel.read) ∧
     (isOkE (negotiateListReadLock oneListWriteState {}).1 = true ↔
      ∀ l ∈ oneListWriteState.listLocks, l.level ≠ LockLevel.write) ∧
     (isOkE (negotiateListWriteLock oneListWriteState {}).1 = false →
      (negotiateListWriteLock oneListWriteState {}).1 = Except.error TfsErr.lockDenied) ∧
     (isOkE (negotiateListReadLock oneListWriteState {}).1 = false →
      (negotiateListReadLock oneListWriteState {}).1 = Except.error TfsErr.lockDenied) ∧
     (∀ tx', tx'.listRead = none → tx'.listWrite = none →
      isOkE (negotiateListWriteLock oneListWriteState {}).1 = true →
      isOkE (negotiateListWriteLock
        (negotiateListWriteLock oneListWriteState {}).2.1 tx').1 = true)) :=
  ⟨rfl, rfl, list_lock_admission oneListWriteState {} rfl rfl⟩

/-- C8.  Operations through an expired transaction fail with the
expired-transaction error before delegating, leaving the store (lockables,
list locks, cache, backend) and the transaction unchanged; `commit` and
`abort` both expire the transaction via `end`, and nothing resets the flag. -/
theorem expired_transaction_is_inert (st : TfsState) (tx : TxState)
    (h : tx.isExpired = true) :
    (∀ path decrypt, txGetFile st tx path decrypt
      = (Except.error TfsErr.txExpired, st, tx)) ∧
    (∀ path content encrypt, txPutFile st tx path content encrypt
      = (Except.error TfsErr.txExpired, st, tx)) ∧
    (∀ path, txDeleteFile st tx path = (Except.error TfsErr.txExpired, st, tx)) ∧
    (∀ options, txListFiles st tx options = (Except.error TfsErr.txExpired, st, tx)) ∧
    (∀ path, txGetFileUrl st tx path = (Except.error TfsErr.txExpired, st, tx)) ∧
    (∀ st0 tx0, ((txCommit st0 tx0).2).isExpired = true) ∧
    (∀ st0 tx0, ((txAbort st0 tx0).2).isExpired = true) := by
  refine ⟨?_, ?_, ?_, ?_, ?_, ?_, ?_⟩ <;> intros <;>
    simp [txGetFile, txPutFile, txDeleteFile, txListFiles, txGetFileUrl,
          txCommit, txAbort, txEnd, h]

/-- Witness: a fresh store and an expired transaction reject a read. -/
theorem expired_transaction_is_inert_witness :
    expiredTx.isExpired = true ∧
    txGetFile {} expiredTx "file1" false
      = (Except.error TfsErr.txExpired, {}, expiredTx) :=
  ⟨rfl, (expired_transaction_is_inert {} expiredTx rfl).1 "file1" false⟩

/-- C10.  In the append-packed store, an entry whose index records length 0
never reads back: `getFile` returns absent (the zero-length substring is
JS-falsy), while the key stays present in the in-memory master index and in
listings. -/
theorem zero_length_entry_reads_absent
    (st : RaState) (path : String) (d : Bool)
    (idxs : List (String × FileIndex)) (idx : FileIndex)
    (hloaded : st.fileIndexes = some idxs)
    (hidx : jsGet idxs path = some idx)
    (hlen : idx.length = 0) :
    (∃ st', raGetFile st path d = Except.ok (none, st')) ∧
    raListFiles st none = Except.ok (jsKeys idxs) ∧
    path ∈ jsKeys idxs := by
  refine ⟨?_, ?_, jsGet_mem hidx⟩
  · have hres : raResolveFileIndex st path = Except.ok (some idx, st) := by
      simp only [raResolveFileIndex, hloaded, Option.isSome_some, if_true,
                 except_pure_eq, except_bind_ok, Option.getD_some, hidx]
    rcases hgc : cfsGetFile st.inner st.backend idx.path idx.encrypted
      with ⟨contents, cfs, b⟩
    by_cases ht : jsTruthy contents = true
    · refine ⟨{ st with inner := cfs, backend := b }, ?_⟩
      simp [raGetFile, hres, except_bind_ok, except_pure_eq, hgc, ht, hlen,
            jsSubstr, jsTruthy]
    · refine ⟨{ st with inner := cfs, backend := b }, ?_⟩
      simp [raGetFile, hres, except_bind_ok, except_pure_eq, hgc, ht]
  · simp [raListFiles, hloaded, applyListOptions]

/-- Witness: after `putFile("file1", "", false)` on a fresh append-packed
store, the index records length 0, the read returns absent, the listing
still contains the key. -/
theorem zero_length_entry_reads_absent_witness :
    zeroLenState.fileIndexes = some zeroLenIdxs ∧
    jsGet zeroLenIdxs "file1" = some ⟨"uuid-0", 0, 0, false⟩ ∧
    (⟨"uuid-0", 0, 0, false⟩ : FileIndex).length = 0 ∧
    ((∃ st', raGetFile zeroLenState "file1" false = Except.ok (none, st')) ∧
     raListFiles zeroLenState none = Except.ok (jsKeys zeroLenIdxs) ∧
     "file1" ∈ jsKeys zeroLenIdxs) :=
  ⟨by decide, by decide, rfl,
   zero_length_entry_reads_absent zeroLenState "file1" false zeroLenIdxs
     ⟨"uuid-0", 0, 0, false⟩ (by decide) (by decide) rfl⟩

/-- C9.  `ReadWriteLockFileSource.listFiles` recurses into itself instead
of delegating to the wrapped file source: no amount of fuel makes it
produce a listing. -/
theorem rwl_listfiles_diverges :
    ∀ (fuel : Nat) (options : Option ListOptions),
      rwlListFiles fuel options = none := by
  intro fuel
  induction fuel with
  | zero => intro _; rfl
  | succ n ih => intro options; simpa [rwlListFiles] using ih options

end Db
